import Mathlib

/-!
Verification of the liquidation-amount computation of the money-market
liquidation-queue contract (`contracts/liquidation_queue/src/query.rs`,
`query_liquidation_amount`).

Shallow embedding conventions:

* `Uint256` values are embedded as `Nat`. `Decimal256` values are embedded as
  their raw 18-decimal fixed-point representation: the `Nat` value `d` stands
  for the decimal `d / 10^18`. All mixed `Uint256`/`Decimal256` products and
  quotients of the library floor-divide by the scale, which the helper
  functions below reproduce exactly.
* Arithmetic that panics in the source (`Uint256`/`Decimal256` subtraction
  underflow, division by zero) is embedded as `Option.none`; a CosmWasm panic
  aborts the query, as does a propagated `StdResult` error, so both are one
  observable failure. Overflow past 2^256 also panics in the source; the
  embedding works with unbounded `Nat`, so it describes the executions that
  stay in range (all concrete inputs used below do).
* Storage is embedded as total functions in a `State` record. `read_bid_pool`
  results are `Option BidPool` (`none` = storage read error, which the sweep
  swallows with `continue`); `read_collateral_info` results are
  `Option CollateralInfo` (`none` = error propagated by `?`). The config and
  the external tax-rate query are assumed to succeed and live in the state.
  Address canonicalization is embedded as the identity on the token name.
-/

namespace LiquidationQueue

/-- Fixed-point scale of `Decimal256`: raw value `SCALE` is the decimal `1`. -/
def SCALE : Nat := 10 ^ 18

/-- `Uint256 * Decimal256 → Uint256`: `u.multiply_ratio(d, 10^18)`. -/
def mulUD (u d : Nat) : Nat := u * d / SCALE

/-- `Decimal256 * Decimal256`: raw values multiply then floor-divide by the scale. -/
def mulDD (a b : Nat) : Nat := a * b / SCALE

/-- `Uint256 / Decimal256 → Uint256`: `u.multiply_ratio(10^18, d)` (caller must
avoid `d = 0`, which panics in the source). -/
def divUD (u d : Nat) : Nat := u * SCALE / d

/-- `Decimal256 / Decimal256` on raw values (denominator `0` panics in the source). -/
def divDD (a b : Nat) : Nat := a * SCALE / b

/-- `Decimal256::from_uint256`. -/
def fromU (u : Nat) : Nat := u * SCALE

/-- One premium slot's bid pool, the two fields `query_liquidation_amount`
reads (`total_bid_amount : Uint256`, `premium_rate : Decimal256` raw). -/
structure BidPool where
  total_bid_amount : Nat
  premium_rate : Nat
deriving Repr, DecidableEq

/-- Per-collateral registration record: the number of premium slots. -/
structure CollateralInfo where
  max_slot : Nat
deriving Repr, DecidableEq

/-- The config fields `query_liquidation_amount` reads. `safe_rat` embeds the
source field `safe_ratio` (`Decimal256` raw); `liquidation_threshold` is a
`Uint256` stable-denom value. -/
structure Config where
  safe_rat : Nat
  bid_fee : Nat
  liquidation_threshold : Nat
deriving Repr, DecidableEq

/-- The committed ledger snapshot the query runs against. -/
structure State where
  config : Config
  tax_rate : Nat
  collateral_info : String → Option CollateralInfo
  bid_pool : String → Nat → Option BidPool

/-- Inner slot loop of `query_liquidation_amount` (query.rs lines 62–86) for
one collateral: walk the pools of slots `0..max_slot` (already fetched into a
list, `none` = unreadable pool), tracking the remaining
`collateral_to_liquidate`, and return the stable value this collateral
contributes to `expected_repay_amount`. `none` embeds a panic (division by a
zero denominator, or `Uint256` subtraction underflow). -/
def sweepSlots (price : Nat) : List (Option BidPool) → Nat → Option Nat
  | [], _ => some 0
  | none :: rest, c => sweepSlots price rest c
  | some pool :: rest, c =>
    if pool.total_bid_amount = 0 then sweepSlots price rest c
    else if SCALE < pool.premium_rate then none
    else
      if pool.total_bid_amount < mulUD (mulUD c price) (SCALE - pool.premium_rate) then
        if mulDD (SCALE - pool.premium_rate) price = 0 then none
        else
          if c < divUD pool.total_bid_amount (mulDD (SCALE - pool.premium_rate) price) then none
          else
            Option.map (fun e => pool.total_bid_amount + e)
              (sweepSlots price rest
                (c - divUD pool.total_bid_amount (mulDD (SCALE - pool.premium_rate) price)))
      else some (mulUD (mulUD c price) (SCALE - pool.premium_rate))

/-- Outer collateral loop of `query_liquidation_amount` (query.rs lines 53–87)
over the zipped `(collateral, price)` pairs: returns
`(collaterals_value, expected_repay_amount)` before the fee deduction, `none`
when `read_collateral_info` fails or the slot sweep panics. -/
def sweepCollaterals (st : State) : List ((String × Nat) × Nat) → Option (Nat × Nat)
  | [] => some (0, 0)
  | c :: rest =>
    match st.collateral_info c.1.1 with
    | none => none
    | some info =>
      match sweepSlots c.2 ((List.range info.max_slot).map (st.bid_pool c.1.1)) c.1.2 with
      | none => none
      | some e =>
        match sweepCollaterals st rest with
        | none => none
        | some ve => some (mulUD c.1.2 c.2 + ve.1, e + ve.2)

/-- Final scaling step (query.rs lines 108–121): multiply every zipped
collateral amount by the capped `liquidation_ratio` and drop zero amounts. -/
def applyRat (r : Nat) (cs : List ((String × Nat) × Nat)) : List (String × Nat) :=
  (cs.map (fun c => (c.1.1, mulUD c.1.2 r))).filter (fun c => decide (0 < c.2))

/-- Fee deduction factor of query.rs line 49:
`(1 − bid_fee) × (1 − tax_rate)` on `Decimal256` raw values. -/
def baseFeeDeductor (st : State) : Nat :=
  mulDD (SCALE - st.config.bid_fee) (SCALE - st.tax_rate)

/-- Safe debt level of query.rs line 98: `borrow_limit × safe_ratio`. -/
def safeBorrowAmount (st : State) (borrow_limit : Nat) : Nat :=
  mulUD borrow_limit st.config.safe_rat

/-- Tail of `query_liquidation_amount` after the ladder sweep (query.rs lines
91–121), given the sweep's `collaterals_value` `v` and raw
`expected_repay_amount` `e0`: apply the fee deduction, force full liquidation
when the net recovery cannot exceed the debt, otherwise pick the liquidation
ratio by the threshold branch, cap it at one and scale every collateral. -/
def planFrom (st : State) (borrow_amount borrow_limit : Nat)
    (collaterals : List (String × Nat)) (collateral_prices : List Nat) (v e0 : Nat) :
    Option (List (String × Nat)) :=
  if mulUD e0 (baseFeeDeductor st) ≤ borrow_amount then some collaterals
  else if v < st.config.liquidation_threshold then
    if mulUD e0 (baseFeeDeductor st) = 0 then none
    else
      some (applyRat
        (min SCALE (divDD (fromU borrow_amount) (fromU (mulUD e0 (baseFeeDeductor st)))))
        (collaterals.zip collateral_prices))
  else
    if borrow_amount < safeBorrowAmount st borrow_limit then none
    else if mulUD e0 (baseFeeDeductor st) ≤ safeBorrowAmount st borrow_limit then none
    else
      some (applyRat
        (min SCALE (divDD
          (fromU (borrow_amount - safeBorrowAmount st borrow_limit))
          (fromU (mulUD e0 (baseFeeDeductor st) - safeBorrowAmount st borrow_limit))))
        (collaterals.zip collateral_prices))

/-- Embedding of `query_liquidation_amount` (query.rs lines 32–122). `none`
embeds an errored/aborted query; `some plan` is a returned
`LiquidationAmountResponse`. -/
def query_liquidation_amount (st : State) (borrow_amount borrow_limit : Nat)
    (collaterals : List (String × Nat)) (collateral_prices : List Nat) :
    Option (List (String × Nat)) :=
  if borrow_amount ≤ borrow_limit then some []
  else if SCALE < st.config.bid_fee then none
  else if SCALE < st.tax_rate then none
  else
    match sweepCollaterals st (collaterals.zip collateral_prices) with
    | none => none
    | some ve => planFrom st borrow_amount borrow_limit collaterals collateral_prices ve.1 ve.2

/-- Stable value of a returned plan: sum of `amount × price(token)` over its
entries, with prices supplied by a per-token price function. -/
def totalValue (out : List (String × Nat)) (priceOf : String → Nat) : Nat :=
  (out.map (fun c => mulUD c.2 (priceOf c.1))).sum

/-- Concrete ledger snapshot: one collateral type `"a"` with a single funded
slot holding `10000` stable units at premium `0`; fees and taxes zero. -/
def stLiquid : State :=
  { config := { safe_rat := 0, bid_fee := 0, liquidation_threshold := 100 }
    tax_rate := 0
    collateral_info := fun t => if t = "a" then some ⟨1⟩ else none
    bid_pool := fun t s => if t = "a" ∧ s = 0 then some ⟨10000, 0⟩ else none }

/-- Concrete ledger snapshot: collateral types `"a"` and `"b"` registered with
one slot each, but no bid pool ever funded. -/
def stNoBids : State :=
  { config := { safe_rat := 0, bid_fee := 0, liquidation_threshold := 100 }
    tax_rate := 0
    collateral_info := fun t => if t = "a" ∨ t = "b" then some ⟨1⟩ else none
    bid_pool := fun _ _ => none }

/-- Concrete ledger snapshot: collateral type `"a"` with one funded slot of
`100` stable units whose premium rate is exactly `1`. -/
def stFullPremium : State :=
  { config := { safe_rat := 0, bid_fee := 0, liquidation_threshold := 100 }
    tax_rate := 0
    collateral_info := fun t => if t = "a" then some ⟨1⟩ else none
    bid_pool := fun t s => if t = "a" ∧ s = 0 then some ⟨100, SCALE⟩ else none }

theorem SCALE_pos : 0 < SCALE := by norm_num [SCALE]

theorem mulUD_le_self (u : Nat) {d : Nat} (h : d ≤ SCALE) : mulUD u d ≤ u := by
  have h1 : u * d ≤ u * SCALE := Nat.mul_le_mul_left u h
  calc mulUD u d ≤ u * SCALE / SCALE := Nat.div_le_div_right h1
    _ = u := Nat.mul_div_cancel u SCALE_pos

theorem mulUD_mono_left {u v : Nat} (d : Nat) (h : u ≤ v) : mulUD u d ≤ mulUD v d :=
  Nat.div_le_div_right (Nat.mul_le_mul_right d h)

theorem mulUD_mono_right (u : Nat) {d e : Nat} (h : d ≤ e) : mulUD u d ≤ mulUD u e :=
  Nat.div_le_div_right (Nat.mul_le_mul_left u h)

theorem divDD_fromU_fromU (a b : Nat) : divDD (fromU a) (fromU b) = a * SCALE / b := by
  unfold divDD fromU
  exact Nat.mul_div_mul_right (a * SCALE) b SCALE_pos

theorem zip_take_len (l : List α) : ∀ (l' : List β), l.zip (l'.take l.length) = l.zip l' := by
  induction l with
  | nil => intro l'; simp
  | cons x xs ih =>
    intro l'
    cases l' with
    | nil => simp
    | cons y ys =>
      simp only [List.length_cons, List.take_succ_cons, List.zip_cons_cons]
      rw [ih ys]

theorem mem_applyRat {p : String × Nat} {r : Nat} {l : List ((String × Nat) × Nat)}
    (h : p ∈ applyRat r l) : 0 < p.2 ∧ ∃ x ∈ l, p = (x.1.1, mulUD x.1.2 r) := by
  unfold applyRat at h
  have h1 := List.of_mem_filter h
  have h2 := List.mem_of_mem_filter h
  simp only [decide_eq_true_eq] at h1
  refine ⟨h1, ?_⟩
  obtain ⟨x, hx, hfx⟩ := List.mem_map.1 h2
  exact ⟨x, hx, hfx.symm⟩

theorem totalValue_applyRat (r : Nat) (l : List ((String × Nat) × Nat)) (priceOf : String → Nat) :
    totalValue (applyRat r l) priceOf =
      (l.map (fun x => mulUD (mulUD x.1.2 r) (priceOf x.1.1))).sum := by
  induction l with
  | nil => rfl
  | cons x xs ih =>
    by_cases hx : 0 < mulUD x.1.2 r
    · simp only [applyRat, totalValue, List.map_cons, List.filter_cons, List.map, List.sum_cons,
        decide_eq_true_eq, hx, if_pos] at ih ⊢
      rw [← ih]
    · have hz : mulUD x.1.2 r = 0 := Nat.eq_zero_of_not_pos hx
      simp only [applyRat, totalValue, List.map_cons, List.filter_cons, List.sum_cons,
        decide_eq_true_eq, hx, if_neg, if_false] at ih ⊢
      rw [← ih, hz]
      simp [mulUD]

theorem totalValue_applyRat_mono {r1 r2 : Nat} (l : List ((String × Nat) × Nat))
    (priceOf : String → Nat) (h : r1 ≤ r2) :
    totalValue (applyRat r1 l) priceOf ≤ totalValue (applyRat r2 l) priceOf := by
  rw [totalValue_applyRat, totalValue_applyRat]
  induction l with
  | nil => simp
  | cons x xs ih =>
    simp only [List.map_cons, List.sum_cons]
    exact Nat.add_le_add (mulUD_mono_left _ (mulUD_mono_right _ h)) ih

theorem totalValue_applyRat_le_full {r : Nat} (h : r ≤ SCALE) (cs : List (String × Nat))
    (ps : List Nat) (priceOf : String → Nat) :
    totalValue (applyRat r (cs.zip ps)) priceOf ≤ totalValue cs priceOf := by
  rw [totalValue_applyRat]
  induction cs generalizing ps with
  | nil => simp [totalValue]
  | cons x xs ih =>
    cases ps with
    | nil => simp [totalValue]
    | cons p pr =>
      simp only [List.zip_cons_cons, List.map_cons, List.sum_cons, totalValue]
      exact Nat.add_le_add (mulUD_mono_left _ (mulUD_le_self _ h)) (ih pr)

theorem planFrom_shape {st : State} {b limit v e0 : Nat} {cs : List (String × Nat)}
    {ps : List Nat} {out : List (String × Nat)}
    (h : planFrom st b limit cs ps v e0 = some out) :
    out = cs ∨ ∃ r, r ≤ SCALE ∧ out = applyRat r (cs.zip ps) := by
  unfold planFrom at h
  split at h
  · exact Or.inl (Option.some.inj h).symm
  · split at h
    · split at h
      · exact absurd h (by simp)
      · exact Or.inr ⟨_, Nat.min_le_left _ _, (Option.some.inj h).symm⟩
    · split at h
      · exact absurd h (by simp)
      · split at h
        · exact absurd h (by simp)
        · exact Or.inr ⟨_, Nat.min_le_left _ _, (Option.some.inj h).symm⟩

theorem query_shape {st : State} {b limit : Nat} {cs : List (String × Nat)}
    {ps : List Nat} {out : List (String × Nat)}
    (h : query_liquidation_amount st b limit cs ps = some out) :
    out = [] ∨ out = cs ∨ ∃ r, r ≤ SCALE ∧ out = applyRat r (cs.zip ps) := by
  unfold query_liquidation_amount at h
  split at h
  · exact Or.inl (Option.some.inj h).symm
  · split at h
    · exact absurd h (by simp)
    · split at h
      · exact absurd h (by simp)
      · split at h
        · exact absurd h (by simp)
        · exact Or.inr (planFrom_shape h)

/-- C4: whenever `borrow_amount ≤ borrow_limit`, `query_liquidation_amount`
returns the empty plan, for every ledger state (hence regardless of the
collateral inputs, the tax rate, and the bid-pool contents): the early exit
fires before the fee computation and before any ladder walk. -/
theorem safely_collateralized_returns_empty (st : State) (b limit : Nat)
    (cs : List (String × Nat)) (ps : List Nat) (h : b ≤ limit) :
    query_liquidation_amount st b limit cs ps = some [] := by
  unfold query_liquidation_amount
  rw [if_pos h]

theorem safely_collateralized_returns_empty_witness :
    (5 : Nat) ≤ 7 ∧ query_liquidation_amount stLiquid 5 7 [("a", 50)] [SCALE] = some [] :=
  ⟨by decide, safely_collateralized_returns_empty stLiquid 5 7 [("a", 50)] [SCALE] (by decide)⟩

/-- C5: every successful result of `query_liquidation_amount` is either the
empty plan, the input collateral list itself, or the input scaled by one
single ratio capped at `1` (`applyRat` applies that one ratio uniformly and
drops zeros); consequently every returned amount is bounded by the
corresponding input collateral amount. -/
theorem returned_amounts_bounded_by_input {st : State} {b limit : Nat}
    {cs : List (String × Nat)} {ps : List Nat} {out : List (String × Nat)}
    (h : query_liquidation_amount st b limit cs ps = some out) :
    (out = [] ∨ out = cs ∨ ∃ r, r ≤ SCALE ∧ out = applyRat r (cs.zip ps)) ∧
      ∀ p ∈ out, ∃ a, (p.1, a) ∈ cs ∧ p.2 ≤ a := by
  refine ⟨query_shape h, ?_⟩
  rcases query_shape h with hout | hout | ⟨r, hr, hout⟩
  · intro p hp; rw [hout] at hp; exact absurd hp (List.not_mem_nil p)
  · intro p hp
    rw [hout] at hp
    exact ⟨p.2, hp, le_refl p.2⟩
  · intro p hp
    rw [hout] at hp
    obtain ⟨-, x, hx, hpx⟩ := mem_applyRat hp
    refine ⟨x.1.2, ?_, ?_⟩
    · have := (List.of_mem_zip hx).1
      rw [hpx]
      exact this
    · rw [hpx]
      exact mulUD_le_self _ hr

theorem returned_amounts_bounded_by_input_witness :
    query_liquidation_amount stLiquid 10 5 [("a", 50)] [SCALE] = some [("a", 10)] ∧
      (([("a", 10)] : List (String × Nat)) = [] ∨ ([("a", 10)] : List (String × Nat)) = [("a", 50)] ∨
        ∃ r, r ≤ SCALE ∧ [("a", 10)] = applyRat r ([("a", 50)].zip [SCALE])) ∧
      ∀ p ∈ ([("a", 10)] : List (String × Nat)), ∃ a, (p.1, a) ∈ [("a", 50)] ∧ p.2 ≤ a :=
  ⟨by decide,
    @returned_amounts_bounded_by_input stLiquid 10 5 [("a", 50)] [SCALE] [("a", 10)] (by decide)⟩

/-- C6 counterexample: with a registered collateral `"a"` held in amount `0`,
no funded bid pools, `borrow_amount = 2 > borrow_limit = 1`, the
force-full-liquidation branch returns the input list unmodified, so the
response contains the pair `("a", 0)` whose amount is not strictly positive —
refuting the claim that zero-amount entries are omitted in every branch. -/
theorem zero_amount_entry_returned_in_full_branch :
    query_liquidation_amount stNoBids 2 1 [("a", 0)] [SCALE] = some [("a", 0)] ∧
      ¬ ∀ p ∈ ([("a", 0)] : List (String × Nat)), 0 < p.2 :=
  ⟨by decide, by decide⟩

/-- C6 amended: zero-amount entries are dropped only by the scaling branch;
the force-full-liquidation branch returns the input list unmodified. Hence
every entry of a returned plan either has a strictly positive amount or is
literally an entry of the input collaterals list. -/
theorem zero_amount_entries_only_from_input {st : State} {b limit : Nat}
    {cs : List (String × Nat)} {ps : List Nat} {out : List (String × Nat)}
    (h : query_liquidation_amount st b limit cs ps = some out) :
    ∀ p ∈ out, 0 < p.2 ∨ p ∈ cs := by
  rcases query_shape h with hout | hout | ⟨r, -, hout⟩
  · intro p hp; rw [hout] at hp; exact absurd hp (List.not_mem_nil p)
  · intro p hp; rw [hout] at hp; exact Or.inr hp
  · intro p hp
    rw [hout] at hp
    exact Or.inl (mem_applyRat hp).1

theorem zero_amount_entries_only_from_input_witness :
    query_liquidation_amount stNoBids 2 1 [("a", 0)] [SCALE] = some [("a", 0)] ∧
      ∀ p ∈ ([("a", 0)] : List (String × Nat)), 0 < p.2 ∨ p ∈ [(("a", 0) : String × Nat)] :=
  ⟨by decide,
    @zero_amount_entries_only_from_input stNoBids 2 1 [("a", 0)] [SCALE] [("a", 0)] (by decide)⟩

/-- C7 counterexample: a call with two collaterals and a single price is not
rejected — it succeeds and returns a plan (here the force-full branch returns
both input entries), refuting the claim that mismatched-length vectors fail
with an `InvalidInput` error before the computation proceeds. -/
theorem mismatched_lengths_not_rejected :
    ([("a", 5), ("b", 7)] : List (String × Nat)).length ≠ ([SCALE] : List Nat).length ∧
      query_liquidation_amount stNoBids 2 1 [("a", 5), ("b", 7)] [SCALE] =
        some [("a", 5), ("b", 7)] :=
  ⟨by decide, by decide⟩

/-- C7 amended: no length check exists; the computation zips the two vectors
positionally, so surplus prices beyond the collaterals' length are silently
ignored — the query behaves exactly as if the price vector were truncated to
the collaterals' length (and surplus collaterals enter neither the sweep nor
the scaled output, though the force-full branch still returns them). -/
theorem surplus_prices_ignored (st : State) (b limit : Nat)
    (cs : List (String × Nat)) (ps : List Nat) :
    query_liquidation_amount st b limit cs ps =
      query_liquidation_amount st b limit cs (ps.take cs.length) := by
  unfold query_liquidation_amount planFrom
  rw [zip_take_len]

theorem mulUD_zero_left (d : Nat) : mulUD 0 d = 0 := by
  simp [mulUD]

/-- C9: inserting a premium slot whose pool record is unreadable (`none`) or
whose `total_bid_amount` is zero anywhere in the ladder leaves the sweep
result unchanged: the slot contributes nothing to `expected_repay_amount`,
the sweep continues with the next slot, and in particular such a slot never
turns a succeeding sweep into a failure. -/
theorem degenerate_slot_skipped (price c : Nat) (l1 l2 : List (Option BidPool))
    (op : Option BidPool) (hop : ∀ p, op = some p → p.total_bid_amount = 0) :
    sweepSlots price (l1 ++ op :: l2) c = sweepSlots price (l1 ++ l2) c := by
  induction l1 generalizing c with
  | nil =>
    cases op with
    | none => simp only [List.nil_append, sweepSlots]
    | some p =>
      simp only [List.nil_append, sweepSlots, hop p rfl, if_true]
  | cons hd tl ih =>
    cases hd with
    | none =>
      simp only [List.cons_append, sweepSlots]
      exact ih c
    | some p =>
      simp only [List.cons_append, sweepSlots]
      split_ifs <;> first | rfl | exact ih _ | exact congrArg _ (ih _)

theorem degenerate_slot_skipped_witness :
    (∀ p, (none : Option BidPool) = some p → p.total_bid_amount = 0) ∧
      sweepSlots SCALE ([some ⟨20, 0⟩] ++ (none : Option BidPool) :: []) 50 =
        sweepSlots SCALE ([some ⟨20, 0⟩] ++ []) 50 :=
  ⟨fun _ h => Option.noConfusion h,
    degenerate_slot_skipped SCALE 50 [some ⟨20, 0⟩] [] none (fun _ h => Option.noConfusion h)⟩

/-- C1: one step of the ladder sweep, for a readable slot with non-zero
liquidity. The slot would pay `pool_repay_amount = collateral_to_liquidate ×
price × (1 − premium_rate)` for the whole remainder. If that does not exceed
`total_bid_amount`, the unclamped amount is accumulated and the sweep of this
collateral's ladder stops; if it exceeds `total_bid_amount`, the amount is
clamped to `total_bid_amount`, the absorbed collateral is back-solved as
`pool_repay_amount / ((1 − premium_rate) × price)`, the remaining collateral
shrinks by it, the clamped amount is accumulated, and the sweep continues
with the next slot in increasing slot order. -/
theorem ladder_sweep_step (price : Nat) (pool : BidPool) (rest : List (Option BidPool))
    (c : Nat) (hbids : pool.total_bid_amount ≠ 0) (hprem : pool.premium_rate ≤ SCALE) :
    (mulUD (mulUD c price) (SCALE - pool.premium_rate) ≤ pool.total_bid_amount →
      sweepSlots price (some pool :: rest) c =
        some (mulUD (mulUD c price) (SCALE - pool.premium_rate))) ∧
    (pool.total_bid_amount < mulUD (mulUD c price) (SCALE - pool.premium_rate) →
      mulDD (SCALE - pool.premium_rate) price ≠ 0 →
      divUD pool.total_bid_amount (mulDD (SCALE - pool.premium_rate) price) ≤ c →
      sweepSlots price (some pool :: rest) c =
        Option.map (fun e => pool.total_bid_amount + e)
          (sweepSlots price rest
            (c - divUD pool.total_bid_amount (mulDD (SCALE - pool.premium_rate) price)))) := by
  constructor
  · intro hle
    simp only [sweepSlots]
    rw [if_neg hbids, if_neg (Nat.not_lt.2 hprem), if_neg (Nat.not_lt.2 hle)]
  · intro hgt hd habs
    simp only [sweepSlots]
    rw [if_neg hbids, if_neg (Nat.not_lt.2 hprem), if_pos hgt, if_neg hd,
      if_neg (Nat.not_lt.2 habs)]

theorem ladder_sweep_step_witness :
    (⟨20, 0⟩ : BidPool).total_bid_amount ≠ 0 ∧ (⟨20, 0⟩ : BidPool).premium_rate ≤ SCALE ∧
      ((mulUD (mulUD 50 SCALE) (SCALE - (⟨20, 0⟩ : BidPool).premium_rate) ≤
          (⟨20, 0⟩ : BidPool).total_bid_amount →
        sweepSlots SCALE [some ⟨20, 0⟩] 50 =
          some (mulUD (mulUD 50 SCALE) (SCALE - (⟨20, 0⟩ : BidPool).premium_rate))) ∧
      ((⟨20, 0⟩ : BidPool).total_bid_amount <
          mulUD (mulUD 50 SCALE) (SCALE - (⟨20, 0⟩ : BidPool).premium_rate) →
        mulDD (SCALE - (⟨20, 0⟩ : BidPool).premium_rate) SCALE ≠ 0 →
        divUD (⟨20, 0⟩ : BidPool).total_bid_amount
          (mulDD (SCALE - (⟨20, 0⟩ : BidPool).premium_rate) SCALE) ≤ 50 →
        sweepSlots SCALE [some ⟨20, 0⟩] 50 =
          Option.map (fun e => (⟨20, 0⟩ : BidPool).total_bid_amount + e)
            (sweepSlots SCALE []
              (50 - divUD (⟨20, 0⟩ : BidPool).total_bid_amount
                (mulDD (SCALE - (⟨20, 0⟩ : BidPool).premium_rate) SCALE))))) :=
  ⟨by decide, by decide, ladder_sweep_step SCALE ⟨20, 0⟩ [] 50 (by decide) (by decide)⟩

/-- C8 counterexample: with `borrow_amount = 2 > borrow_limit = 1` and a
funded pool, a zero collateral price (first conjunct) and a premium rate of
exactly one (second conjunct) both make the query return a plan — the
force-full-liquidation response — rather than fail with a division-by-zero
error as the claim states. -/
theorem zero_price_and_full_premium_return_plans :
    query_liquidation_amount stLiquid 2 1 [("a", 50)] [0] = some [("a", 50)] ∧
      query_liquidation_amount stFullPremium 2 1 [("a", 50)] [SCALE] = some [("a", 50)] :=
  ⟨by decide, by decide⟩

/-- C8 amended: for a readable non-empty pool met with a zero price or a
premium rate of exactly one, `pool_repay_amount` computes to `0`, which never
exceeds the positive `total_bid_amount`, so the division branch is not taken:
no division by zero occurs, the slot contributes `0`, and this collateral's
ladder sweep stops there with a defined (non-failing) result. -/
theorem zero_price_or_full_premium_breaks (price : Nat) (pool : BidPool)
    (rest : List (Option BidPool)) (c : Nat) (hbids : pool.total_bid_amount ≠ 0)
    (hprem : pool.premium_rate ≤ SCALE) (h : price = 0 ∨ pool.premium_rate = SCALE) :
    sweepSlots price (some pool :: rest) c = some 0 := by
  have hrep : mulUD (mulUD c price) (SCALE - pool.premium_rate) = 0 := by
    rcases h with h | h
    · rw [h]
      simp [mulUD]
    · rw [h]
      simp [mulUD]
  simp only [sweepSlots]
  rw [if_neg hbids, if_neg (Nat.not_lt.2 hprem), hrep, if_neg (Nat.not_lt_zero _)]

theorem zero_price_or_full_premium_breaks_witness :
    (⟨10000, 0⟩ : BidPool).total_bid_amount ≠ 0 ∧
      (⟨10000, 0⟩ : BidPool).premium_rate ≤ SCALE ∧
      ((0 : Nat) = 0 ∨ (⟨10000, 0⟩ : BidPool).premium_rate = SCALE) ∧
      sweepSlots 0 [some ⟨10000, 0⟩] 50 = some 0 :=
  ⟨by decide, by decide, Or.inl rfl,
    zero_price_or_full_premium_breaks 0 ⟨10000, 0⟩ [] 50 (by decide) (by decide) (Or.inl rfl)⟩

theorem sweepSlots_all_degenerate (price c : Nat) (l : List (Option BidPool))
    (h : ∀ op ∈ l, ∀ p, op = some p → p.total_bid_amount = 0) :
    sweepSlots price l c = some 0 := by
  induction l with
  | nil => rfl
  | cons hd tl ih =>
    have htl : ∀ op ∈ tl, ∀ p, op = some p → p.total_bid_amount = 0 :=
      fun op hop => h op (List.mem_cons_of_mem hd hop)
    cases hd with
    | none =>
      simp only [sweepSlots]
      exact ih htl
    | some p =>
      have hz : p.total_bid_amount = 0 := h (some p) (List.mem_cons_self _ _) p rfl
      simp only [sweepSlots, hz, if_true]
      exact ih htl

theorem sweepCollaterals_all_degenerate (st : State) (l : List ((String × Nat) × Nat))
    (hinfo : ∀ x ∈ l, (st.collateral_info x.1.1).isSome)
    (hpools : ∀ t s p, st.bid_pool t s = some p → p.total_bid_amount = 0) :
    sweepCollaterals st l = some ((l.map fun x => mulUD x.1.2 x.2).sum, 0) := by
  induction l with
  | nil => rfl
  | cons x xs ih =>
    obtain ⟨info, hi⟩ := Option.isSome_iff_exists.1 (hinfo x (List.mem_cons_self x xs))
    have hslots : sweepSlots x.2 ((List.range info.max_slot).map (st.bid_pool x.1.1)) x.1.2 =
        some 0 := by
      refine sweepSlots_all_degenerate _ _ _ ?_
      intro op hop q hq
      obtain ⟨s, -, rfl⟩ := List.mem_map.1 hop
      exact hpools _ _ q hq
    simp only [sweepCollaterals, hi, hslots, ih (fun y hy => hinfo y (List.mem_cons_of_mem x hy)),
      List.map_cons, List.sum_cons, Nat.add_zero]

/-- C3: once `expected_repay_amount` has been scaled by
`base_fee_deductor = (1 − bid_fee) × (1 − tax_rate)`, a result not exceeding
`borrow_amount` makes the query return the entire input collaterals list
unmodified (first part); in particular, when every readable pool has zero
`total_bid_amount` and `borrow_amount > borrow_limit`, the raw
`expected_repay_amount` is `0`, so 100% of every collateral is returned
(second part). -/
theorem full_liquidation_when_repay_insufficient :
    (∀ (st : State) (b limit v e0 : Nat) (cs : List (String × Nat)) (ps : List Nat),
      limit < b → st.config.bid_fee ≤ SCALE → st.tax_rate ≤ SCALE →
      sweepCollaterals st (cs.zip ps) = some (v, e0) →
      mulUD e0 (baseFeeDeductor st) ≤ b →
      query_liquidation_amount st b limit cs ps = some cs) ∧
    (∀ (st : State) (b limit : Nat) (cs : List (String × Nat)) (ps : List Nat),
      limit < b → st.config.bid_fee ≤ SCALE → st.tax_rate ≤ SCALE →
      (∀ x ∈ cs.zip ps, (st.collateral_info x.1.1).isSome) →
      (∀ t s p, st.bid_pool t s = some p → p.total_bid_amount = 0) →
      query_liquidation_amount st b limit cs ps = some cs) := by
  constructor
  · intro st b limit v e0 cs ps hb hfee htax hsweep hle
    unfold query_liquidation_amount
    rw [if_neg (Nat.not_le.2 hb), if_neg (Nat.not_lt.2 hfee), if_neg (Nat.not_lt.2 htax), hsweep]
    unfold planFrom
    dsimp only
    rw [if_pos hle]
  · intro st b limit cs ps hb hfee htax hinfo hpools
    have hsweep := sweepCollaterals_all_degenerate st (cs.zip ps) hinfo hpools
    unfold query_liquidation_amount
    rw [if_neg (Nat.not_le.2 hb), if_neg (Nat.not_lt.2 hfee), if_neg (Nat.not_lt.2 htax), hsweep]
    unfold planFrom
    dsimp only
    rw [if_pos (by simp [mulUD_zero_left])]

theorem full_liquidation_when_repay_insufficient_witness :
    ((1 : Nat) < 100 ∧ stLiquid.config.bid_fee ≤ SCALE ∧ stLiquid.tax_rate ≤ SCALE ∧
      sweepCollaterals stLiquid ([("a", 50)].zip [SCALE]) = some (50, 50) ∧
      mulUD 50 (baseFeeDeductor stLiquid) ≤ 100 ∧
      query_liquidation_amount stLiquid 100 1 [("a", 50)] [SCALE] = some [("a", 50)]) ∧
    ((1 : Nat) < 2 ∧ (∀ x ∈ ([("a", 5)] : List (String × Nat)).zip [SCALE],
        (stNoBids.collateral_info x.1.1).isSome) ∧
      query_liquidation_amount stNoBids 2 1 [("a", 5)] [SCALE] = some [("a", 5)]) :=
  ⟨⟨by decide, by decide, by decide, by decide, by decide,
    full_liquidation_when_repay_insufficient.1 stLiquid 100 1 50 50 [("a", 50)] [SCALE]
      (by decide) (by decide) (by decide) (by decide) (by decide)⟩,
   ⟨by decide, by decide,
    full_liquidation_when_repay_insufficient.2 stNoBids 2 1 [("a", 5)] [SCALE]
      (by decide) (by decide) (by decide) (by decide)
      (fun t s p h => Option.noConfusion h)⟩⟩

/-- C2: when liquidation proceeds to the ratio computation (the position is
under-collateralized and the fee-adjusted `expected_repay_amount` exceeds
`borrow_amount`), the ratio — capped at one — is
`borrow_amount / expected_repay_amount` if `collaterals_value` is strictly
below the configured `liquidation_threshold`, and otherwise
`(borrow_amount − safe_borrow_amount) / (expected_repay_amount −
safe_borrow_amount)` with `safe_borrow_amount = borrow_limit × safe_ratio`;
the chosen ratio is applied to every collateral. -/
theorem threshold_branch_selection {st : State} {b limit v e0 : Nat}
    {cs : List (String × Nat)} {ps : List Nat}
    (hb : limit < b) (hfee : st.config.bid_fee ≤ SCALE) (htax : st.tax_rate ≤ SCALE)
    (hsafe : st.config.safe_rat ≤ SCALE)
    (hsweep : sweepCollaterals st (cs.zip ps) = some (v, e0))
    (hgt : b < mulUD e0 (baseFeeDeductor st)) :
    (v < st.config.liquidation_threshold →
      query_liquidation_amount st b limit cs ps =
        some (applyRat
          (min SCALE (divDD (fromU b) (fromU (mulUD e0 (baseFeeDeductor st)))))
          (cs.zip ps))) ∧
    (st.config.liquidation_threshold ≤ v →
      query_liquidation_amount st b limit cs ps =
        some (applyRat
          (min SCALE (divDD (fromU (b - safeBorrowAmount st limit))
            (fromU (mulUD e0 (baseFeeDeductor st) - safeBorrowAmount st limit))))
          (cs.zip ps))) := by
  have hsb : safeBorrowAmount st limit ≤ limit := mulUD_le_self limit hsafe
  constructor
  · intro hv
    unfold query_liquidation_amount
    rw [if_neg (Nat.not_le.2 hb), if_neg (Nat.not_lt.2 hfee), if_neg (Nat.not_lt.2 htax), hsweep]
    unfold planFrom
    dsimp only
    rw [if_neg (Nat.not_le.2 hgt), if_pos hv, if_neg (by omega)]
  · intro hv
    unfold query_liquidation_amount
    rw [if_neg (Nat.not_le.2 hb), if_neg (Nat.not_lt.2 hfee), if_neg (Nat.not_lt.2 htax), hsweep]
    unfold planFrom
    dsimp only
    rw [if_neg (Nat.not_le.2 hgt), if_neg (Nat.not_lt.2 hv), if_neg (by omega),
      if_neg (by omega)]

theorem threshold_branch_selection_witness :
    ((5 : Nat) < 10 ∧ stLiquid.config.bid_fee ≤ SCALE ∧ stLiquid.tax_rate ≤ SCALE ∧
      stLiquid.config.safe_rat ≤ SCALE ∧
      sweepCollaterals stLiquid ([("a", 50)].zip [SCALE]) = some (50, 50) ∧
      (10 : Nat) < mulUD 50 (baseFeeDeductor stLiquid)) ∧
    ((50 < stLiquid.config.liquidation_threshold →
      query_liquidation_amount stLiquid 10 5 [("a", 50)] [SCALE] =
        some (applyRat
          (min SCALE (divDD (fromU 10) (fromU (mulUD 50 (baseFeeDeductor stLiquid)))))
          ([("a", 50)].zip [SCALE]))) ∧
    (stLiquid.config.liquidation_threshold ≤ 50 →
      query_liquidation_amount stLiquid 10 5 [("a", 50)] [SCALE] =
        some (applyRat
          (min SCALE (divDD (fromU (10 - safeBorrowAmount stLiquid 5))
            (fromU (mulUD 50 (baseFeeDeductor stLiquid) - safeBorrowAmount stLiquid 5))))
          ([("a", 50)].zip [SCALE])))) :=
  ⟨⟨by decide, by decide, by decide, by decide, by decide, by decide⟩,
    @threshold_branch_selection stLiquid 10 5 50 50 [("a", 50)] [SCALE]
      (by decide) (by decide) (by decide) (by decide) (by decide) (by decide)⟩

theorem planFrom_value_mono {st : State} {limit v e0 b1 b2 : Nat}
    {cs : List (String × Nat)} {ps : List Nat} {r1 r2 : List (String × Nat)}
    (priceOf : String → Nat) (h12 : b1 ≤ b2)
    (h1 : planFrom st b1 limit cs ps v e0 = some r1)
    (h2 : planFrom st b2 limit cs ps v e0 = some r2) :
    totalValue r1 priceOf ≤ totalValue r2 priceOf := by
  by_cases hE2 : mulUD e0 (baseFeeDeductor st) ≤ b2
  · have hr2 : r2 = cs := by
      unfold planFrom at h2
      rw [if_pos hE2] at h2
      exact (Option.some.inj h2).symm
    rcases planFrom_shape h1 with hr1 | ⟨r, hr, hr1⟩
    · rw [hr1, hr2]
    · rw [hr1, hr2]
      exact totalValue_applyRat_le_full hr cs ps priceOf
  · have hE1 : ¬ mulUD e0 (baseFeeDeductor st) ≤ b1 := fun h => hE2 (le_trans h h12)
    unfold planFrom at h1 h2
    rw [if_neg hE1] at h1
    rw [if_neg hE2] at h2
    by_cases hv : v < st.config.liquidation_threshold
    · rw [if_pos hv] at h1 h2
      have hEne : mulUD e0 (baseFeeDeductor st) ≠ 0 := by omega
      rw [if_neg hEne] at h1 h2
      rw [← Option.some.inj h1, ← Option.some.inj h2]
      apply totalValue_applyRat_mono
      rw [divDD_fromU_fromU, divDD_fromU_fromU]
      exact min_le_min (le_refl SCALE) (Nat.div_le_div_right (Nat.mul_le_mul_right SCALE h12))
    · rw [if_neg hv] at h1 h2
      by_cases hs1 : b1 < safeBorrowAmount st limit
      · rw [if_pos hs1] at h1
        exact absurd h1 (by simp)
      · rw [if_neg hs1] at h1
        have hs2 : ¬ b2 < safeBorrowAmount st limit := by omega
        rw [if_neg hs2] at h2
        by_cases hEs : mulUD e0 (baseFeeDeductor st) ≤ safeBorrowAmount st limit
        · rw [if_pos hEs] at h1
          exact absurd h1 (by simp)
        · rw [if_neg hEs] at h1 h2
          rw [← Option.some.inj h1, ← Option.some.inj h2]
          apply totalValue_applyRat_mono
          rw [divDD_fromU_fromU, divDD_fromU_fromU]
          exact min_le_min (le_refl SCALE)
            (Nat.div_le_div_right (Nat.mul_le_mul_right SCALE (Nat.sub_le_sub_right h12 _)))

/-- C10: with the ledger state, borrow limit, collaterals and prices fixed,
increasing `borrow_amount` never decreases the total liquidated stable value
of the returned plan, for any per-token price assignment (in particular the
one agreeing with `collateral_prices`). -/
theorem liquidated_value_monotone {st : State} {limit b1 b2 : Nat}
    {cs : List (String × Nat)} {ps : List Nat} {r1 r2 : List (String × Nat)}
    (priceOf : String → Nat) (h12 : b1 ≤ b2)
    (h1 : query_liquidation_amount st b1 limit cs ps = some r1)
    (h2 : query_liquidation_amount st b2 limit cs ps = some r2) :
    totalValue r1 priceOf ≤ totalValue r2 priceOf := by
  unfold query_liquidation_amount at h1 h2
  by_cases hb1 : b1 ≤ limit
  · rw [if_pos hb1] at h1
    rw [← Option.some.inj h1]
    simp [totalValue]
  · have hb2 : ¬ b2 ≤ limit := by omega
    rw [if_neg hb1] at h1
    rw [if_neg hb2] at h2
    by_cases hf : SCALE < st.config.bid_fee
    · rw [if_pos hf] at h1
      exact absurd h1 (by simp)
    · rw [if_neg hf] at h1 h2
      by_cases ht : SCALE < st.tax_rate
      · rw [if_pos ht] at h1
        exact absurd h1 (by simp)
      · rw [if_neg ht] at h1 h2
        cases hsw : sweepCollaterals st (cs.zip ps) with
        | none =>
          rw [hsw] at h1
          exact absurd h1 (by simp)
        | some ve =>
          rw [hsw] at h1 h2
          exact planFrom_value_mono priceOf h12 h1 h2

theorem liquidated_value_monotone_witness :
    (10 : Nat) ≤ 20 ∧
      query_liquidation_amount stLiquid 10 5 [("a", 50)] [SCALE] = some [("a", 10)] ∧
      query_liquidation_amount stLiquid 20 5 [("a", 50)] [SCALE] = some [("a", 20)] ∧
      totalValue [("a", 10)] (fun _ => SCALE) ≤ totalValue [("a", 20)] (fun _ => SCALE) :=
  ⟨by decide, by decide, by decide,
    @liquidated_value_monotone stLiquid 5 10 20 [("a", 50)] [SCALE] [("a", 10)] [("a", 20)]
      (fun _ => SCALE) (by decide) (by decide) (by decide)⟩

end LiquidationQueue
